import Mathlib

/-!
Verification development for the samaanai_stocks trading agent.

The repository under verification contains the dashboard frontends, the
deployment scripts and the README; the backend control loop (Run
Coordinator, Risk Policy Engine, Recommendation Client, Broker Connector)
is not among the available source files, so those components are modelled
from the specification text, as marked on each definition.  The frontend
API client (api.js) and the option-chain enrichment helper
(enrichOptionChainPayload in App.jsx) are embedded directly from the
JavaScript source.

Numbers that the specification treats as real quantities (prices, losses,
confidences) are modelled as rationals.  JavaScript numbers in the
frontend embedding are modelled by an explicit type with NaN and signed
infinities, so that coercions such as `Number(x) || 0` and guards such as
`Number.isFinite` keep their JavaScript meaning.
-/

namespace Trading

/-- Modelled from the spec: trade actions of a TradeRecommendation (BUY/SELL/HOLD). -/
inductive Action where
  | buy
  | sell
  | hold
deriving DecidableEq, Repr

/-- Modelled from the spec: a TradeRecommendation - symbol, action, target
quantity, proposed order value, confidence, optional stop-loss and
take-profit levels.  The free-text rationale is irrelevant to the risk
rules and omitted. -/
structure TradeRecommendation where
  symbol : String
  action : Action
  quantity : ℚ
  notional : ℚ
  confidence : ℚ
  stopLoss : Option ℚ
  takeProfit : Option ℚ
deriving DecidableEq, Repr

/-- Modelled from the spec: a Position - symbol, signed quantity, average
entry price, current price and market value. -/
structure Position where
  symbol : String
  quantity : ℚ
  avgEntryPrice : ℚ
  currentPrice : ℚ
  marketValue : ℚ
deriving DecidableEq, Repr

/-- Modelled from the spec: an AccountSnapshot - cash, buying power, total
portfolio value, equity and previous equity. -/
structure AccountSnapshot where
  cash : ℚ
  buyingPower : ℚ
  portfolioValue : ℚ
  equity : ℚ
  prevEquity : ℚ
deriving DecidableEq, Repr

/-- Modelled from the spec: the RiskState - daily trade count, cumulative
daily loss and the kill-switch flag. -/
structure RiskState where
  dailyTradeCount : ℕ
  dailyLoss : ℚ
  killSwitchActive : Bool
deriving DecidableEq, Repr

/-- Modelled from the spec: the risk configuration - maximum daily loss
fraction, maximum position fraction, daily trade cap, default stop-loss
and take-profit levels, minimum confidence and the run interval. -/
structure RiskConfig where
  maxDailyLossPct : ℚ
  maxPositionPct : ℚ
  dailyTradeCap : ℕ
  defaultStopLossPct : ℚ
  defaultTakeProfitPct : ℚ
  minConfidence : ℚ
  intervalMinutes : ℚ
deriving DecidableEq, Repr

/-- Modelled from the spec: a rejection - the symbol together with its
specific rejection reason. -/
structure Rejection where
  symbol : String
  reason : String
deriving DecidableEq, Repr

/-- Market value of the existing position in a symbol, zero when no
position is open for that symbol. -/
def positionValue (positions : List Position) (sym : String) : ℚ :=
  match positions.find? (fun p => p.symbol == sym) with
  | some p => p.marketValue
  | none => 0

/-- Signed value the order would add to the position: positive for BUY,
negative for SELL, zero for HOLD. -/
def signedNotional (rec : TradeRecommendation) : ℚ :=
  match rec.action with
  | .buy => rec.notional
  | .sell => -rec.notional
  | .hold => 0

/-- Modelled from the spec: rule 5 attaches computed stop-loss and
take-profit levels from config defaults if the recommendation omitted
them. -/
def attachDefaults (config : RiskConfig) (rec : TradeRecommendation) :
    TradeRecommendation :=
  { rec with
    stopLoss := some (rec.stopLoss.getD config.defaultStopLossPct)
    takeProfit := some (rec.takeProfit.getD config.defaultTakeProfitPct) }

/-- Modelled from the spec: the Risk Policy Engine rules for a single
recommendation, applied in order, each a hard stop for that symbol:
1. kill switch active rejects all with reason kill_switch;
2. daily loss at or above max_daily_loss_pct times portfolio value rejects
   new BUYs with reason daily_loss_limit, SELLs are still allowed;
3. resulting position value above max_position_pct times portfolio value
   rejects with reason position_limit;
4. daily trade count at or above the configured cap rejects with reason
   trade_count_limit;
5. otherwise approve, attaching default stop-loss and take-profit levels. -/
def evalOne (positions : List Position) (account : AccountSnapshot)
    (riskState : RiskState) (config : RiskConfig)
    (rec : TradeRecommendation) : Except String TradeRecommendation :=
  if riskState.killSwitchActive then
    .error "kill_switch"
  else if rec.action = .buy ∧
      riskState.dailyLoss ≥ config.maxDailyLossPct * account.portfolioValue then
    .error "daily_loss_limit"
  else if positionValue positions rec.symbol + signedNotional rec >
      config.maxPositionPct * account.portfolioValue then
    .error "position_limit"
  else if riskState.dailyTradeCount ≥ config.dailyTradeCap then
    .error "trade_count_limit"
  else
    .ok (attachDefaults config rec)

/-- Modelled from the spec: the Risk Policy Engine, a pure function from
(recommendations, positions, account, risk state, config) to the approved
recommendations and the rejections with reasons.  A rejection stops only
that symbol, not the whole batch. -/
def evaluate (recommendations : List TradeRecommendation)
    (positions : List Position) (account : AccountSnapshot)
    (riskState : RiskState) (config : RiskConfig) :
    List TradeRecommendation × List Rejection :=
  recommendations.foldr
    (fun rec (acc : List TradeRecommendation × List Rejection) =>
      match evalOne positions account riskState config rec with
      | .ok approvedRec => (approvedRec :: acc.1, acc.2)
      | .error reason => (acc.1, ⟨rec.symbol, reason⟩ :: acc.2))
    ([], [])

/-- Modelled from the spec: confidence pre-filter - drop any
TradeRecommendation whose confidence is below the configured minimum. -/
def confidenceFilter (minConfidence : ℚ) (recs : List TradeRecommendation) :
    List TradeRecommendation :=
  recs.filter (fun r => !decide (r.confidence < minConfidence))

/-- Modelled from the spec: failure classes of a recommendation-model
call: rate-limit and service-unavailable are transient; daily quota
exhaustion and a malformed or unparseable response are permanent. -/
inductive FailureClass where
  | rateLimit
  | serviceUnavailable
  | quotaExhausted
  | malformed
deriving DecidableEq, Repr

/-- Transient failure classes are retried; permanent ones are not. -/
def FailureClass.transient : FailureClass → Bool
  | .rateLimit => true
  | .serviceUnavailable => true
  | .quotaExhausted => false
  | .malformed => false

/-- Result of a single attempt against the recommendation model. -/
inductive AttemptResult where
  | ok (recs : List TradeRecommendation)
  | fail (c : FailureClass)
deriving DecidableEq, Repr

/-- Final result of the recommendation client after retries. -/
inductive RecResult where
  | got (recs : List TradeRecommendation)
  | noResponse
deriving DecidableEq, Repr

/-- Modelled from the spec: exponential backoff schedule 5s, 15s, 45s;
the delay slept after the failed attempt with the given index. -/
def backoffDelay : ℕ → ℕ
  | 0 => 5
  | 1 => 15
  | _ => 45

/-- Trace of one recommendation-client call: how many attempts were made,
which backoff delays were slept, and the final result. -/
structure RecTrace where
  attempts : ℕ
  sleeps : List ℕ
  result : RecResult
deriving DecidableEq, Repr

/-- Modelled from the spec: the retry loop of the Recommendation Client.
The oracle gives the result of the attempt with each index; `fuel` is the
number of retries still allowed after the current attempt.  A transient
failure with retries left sleeps the backoff delay and retries; a
permanent failure, or exhausted retries, fails fast with no response. -/
def recClientAux (oracle : ℕ → AttemptResult) : ℕ → ℕ → RecTrace
  | 0, i =>
    match oracle i with
    | .ok recs => ⟨i + 1, [], .got recs⟩
    | .fail _ => ⟨i + 1, [], .noResponse⟩
  | fuel + 1, i =>
    match oracle i with
    | .ok recs => ⟨i + 1, [], .got recs⟩
    | .fail c =>
      if c.transient then
        let t := recClientAux oracle fuel (i + 1)
        ⟨t.attempts, backoffDelay i :: t.sleeps, t.result⟩
      else
        ⟨i + 1, [], .noResponse⟩

/-- Modelled from the spec: the Recommendation Client call - one initial
attempt plus up to 3 retries. -/
def getRecommendations (oracle : ℕ → AttemptResult) : RecTrace :=
  recClientAux oracle 3 0

/-- Modelled from the spec: the terminal classification of a run. -/
inductive Outcome where
  | success
  | noTrades
  | noResponse
  | skipped
  | error
deriving DecidableEq, Repr

/-- Wire string of an outcome, as reported by the trigger endpoint. -/
def Outcome.statusString : Outcome → String
  | .success => "success"
  | .noTrades => "no_trades"
  | .noResponse => "no_response"
  | .skipped => "skipped"
  | .error => "error"

/-- Modelled from the spec: a RunLogEntry - timestamp, trigger source,
outcome, human-readable reason and the number of trades executed. -/
structure RunLogEntry where
  timestamp : ℚ
  triggerSource : String
  outcome : Outcome
  reason : String
  tradesExecuted : ℕ
deriving DecidableEq, Repr

/-- Modelled from the spec: the most recent RunLogEntry whose outcome is
not skipped.  The run log is kept newest first. -/
def lastNonSkipped (log : List RunLogEntry) : Option RunLogEntry :=
  log.find? (fun e => !decide (e.outcome = Outcome.skipped))

/-- Modelled from the spec: the external collaborators of one cycle -
market state, broker data, risk state, the recommendation-model oracle,
per-symbol order placement success, and a possible unexpected fault in
the pipeline before the filter stage. -/
structure Env where
  marketOpen : Bool
  account : AccountSnapshot
  positions : List Position
  riskState : RiskState
  oracle : ℕ → AttemptResult
  orderSucceeds : String → Bool
  pipelineFault : Option String

/-- Coordinator state: the run lock and the run log (newest first). -/
structure CoordState where
  lockHeld : Bool
  runLog : List RunLogEntry

/-- Report of one run_cycle invocation: outcome, reason, orders placed,
risk rejections, and how many broker and model calls were made. -/
structure RunReport where
  outcome : Outcome
  reason : String
  ordersPlaced : ℕ
  rejections : List Rejection
  brokerCalls : ℕ
  modelCalls : ℕ
deriving DecidableEq, Repr

/-- Modelled from the spec: the stages after the market-hours gate, with
an unexpected fault modelled as an exception value that the Coordinator
must catch.  The market-open check counts as one broker call; each order
placement counts as one more. -/
def runPipelineExc (config : RiskConfig) (env : Env) :
    Except String RunReport :=
  match env.pipelineFault with
  | some msg => .error msg
  | none =>
    let t := getRecommendations env.oracle
    match t.result with
    | .noResponse =>
      .ok ⟨.noResponse, "no response from model", 0, [], 1, t.attempts⟩
    | .got recs =>
      let surviving := confidenceFilter config.minConfidence recs
      if surviving.isEmpty then
        .ok ⟨.noTrades, "no recommendation above minimum confidence", 0, [],
          1, t.attempts⟩
      else
        let (approved, rejected) :=
          evaluate surviving env.positions env.account env.riskState config
        let placed := approved.countP (fun r => env.orderSucceeds r.symbol)
        let brokerCalls := 1 + approved.length
        if placed ≥ 1 then
          .ok ⟨.success, "orders placed", placed, rejected, brokerCalls,
            t.attempts⟩
        else
          .ok ⟨.noTrades, "no orders placed", 0, rejected, brokerCalls,
            t.attempts⟩

/-- Modelled from the spec: the run body after the lock - interval gate,
market-hours gate, then the pipeline; the Coordinator catches any
unexpected fault and classifies the run as an error. -/
def runBody (config : RiskConfig) (env : Env) (now : ℚ)
    (log : List RunLogEntry) : RunReport :=
  let gated : Bool :=
    match lastNonSkipped log with
    | some e => decide (now - e.timestamp < config.intervalMinutes)
    | none => false
  if gated then
    ⟨.skipped, "interval not elapsed", 0, [], 0, 0⟩
  else if !env.marketOpen then
    ⟨.skipped, "market closed", 0, [], 1, 0⟩
  else
    match runPipelineExc config env with
    | .ok r => r
    | .error msg => ⟨.error, msg, 0, [], 1, 0⟩

/-- Modelled from the spec: run_cycle - non-blocking lock acquisition,
the gate chain and pipeline, then always a RunLogEntry write and lock
release.  A caller that finds the lock held returns skipped with reason
"run in progress" at once, leaving the lock held by its owner. -/
def run_cycle (config : RiskConfig) (env : Env) (now : ℚ) (trigger : String)
    (st : CoordState) : RunReport × CoordState :=
  if st.lockHeld then
    let r : RunReport := ⟨.skipped, "run in progress", 0, [], 0, 0⟩
    (r, { st with
          runLog := ⟨now, trigger, r.outcome, r.reason, 0⟩ :: st.runLog })
  else
    let r := runBody config env now st.runLog
    (r, { lockHeld := false,
          runLog :=
            ⟨now, trigger, r.outcome, r.reason, r.ordersPlaced⟩ ::
              st.runLog })

/-- Shape of the synchronous reply of POST /api/analyze. -/
structure AnalyzeResponse where
  status : String
  message : String
  tradesExecuted : ℕ
deriving DecidableEq, Repr

/-- Modelled from the spec: the trigger endpoint POST /api/analyze - runs
one cycle and formats its report as the status, message and
trades_executed fields; a structured reply is produced for every outcome,
so no exception reaches the caller. -/
def analyzeEndpoint (config : RiskConfig) (env : Env) (now : ℚ)
    (st : CoordState) : AnalyzeResponse × CoordState :=
  let (r, st2) := run_cycle config env now "manual" st
  (⟨r.outcome.statusString, r.reason, r.ordersPlaced⟩, st2)

/-- Modelled from the spec: the non-blocking test-and-set on the run
lock; returns whether the caller acquired the lock, and the lock state
after the step (held in either case). -/
def tryAcquire (locked : Bool) : Bool × Bool :=
  (!locked, true)

/-- Modelled from the spec: a set of concurrent invocations that all
reach the lock before the winner releases it, serialized in arrival
order by the atomicity of the lock; records which callers acquired it. -/
def raceAcquisitions : ℕ → Bool → List Bool
  | 0, _ => []
  | n + 1, locked =>
    let (got, locked2) := tryAcquire locked
    got :: raceAcquisitions n locked2

end Trading

namespace Frontend

/-- A JavaScript number: NaN, plus or minus infinity, or a finite value
(modelled as a rational). -/
inductive JSNum where
  | nan
  | inf
  | ninf
  | fin (q : ℚ)
deriving DecidableEq, Repr

/-- The JavaScript expression `x || 0`: NaN and zero are falsy and give 0,
every other number is truthy and kept. -/
def JSNum.orZero : JSNum → JSNum
  | .nan => .fin 0
  | .fin q => if q = 0 then .fin 0 else .fin q
  | x => x

/-- The JavaScript comparison `x > 0`; false when x is NaN. -/
def JSNum.gtZero : JSNum → Bool
  | .nan => false
  | .inf => true
  | .ninf => false
  | .fin q => decide (0 < q)

/-- The JavaScript comparison `x <= 0`; false when x is NaN. -/
def JSNum.leZero : JSNum → Bool
  | .nan => false
  | .inf => false
  | .ninf => true
  | .fin q => decide (q ≤ 0)

/-- The JavaScript test `Number.isFinite(x)`. -/
def JSNum.isFiniteB : JSNum → Bool
  | .fin _ => true
  | _ => false

/-- JavaScript addition on numbers. -/
def JSNum.add : JSNum → JSNum → JSNum
  | .nan, _ => .nan
  | _, .nan => .nan
  | .inf, .ninf => .nan
  | .ninf, .inf => .nan
  | .inf, _ => .inf
  | _, .inf => .inf
  | .ninf, _ => .ninf
  | _, .ninf => .ninf
  | .fin a, .fin b => .fin (a + b)

/-- JavaScript multiplication on numbers. -/
def JSNum.mul : JSNum → JSNum → JSNum
  | .nan, _ => .nan
  | _, .nan => .nan
  | .inf, .inf => .inf
  | .inf, .ninf => .ninf
  | .ninf, .inf => .ninf
  | .ninf, .ninf => .inf
  | .inf, .fin b => if b = 0 then .nan else if b < 0 then .ninf else .inf
  | .fin a, .inf => if a = 0 then .nan else if a < 0 then .ninf else .inf
  | .ninf, .fin b => if b = 0 then .nan else if b < 0 then .inf else .ninf
  | .fin a, .ninf => if a = 0 then .nan else if a < 0 then .inf else .ninf
  | .fin a, .fin b => .fin (a * b)

/-- JavaScript division on numbers (the sign of a zero divisor is not
tracked; only nonzero divisors are reached by the embedded code). -/
def JSNum.div : JSNum → JSNum → JSNum
  | .nan, _ => .nan
  | _, .nan => .nan
  | .inf, .inf => .nan
  | .inf, .ninf => .nan
  | .ninf, .inf => .nan
  | .ninf, .ninf => .nan
  | .inf, .fin b => if b < 0 then .ninf else .inf
  | .ninf, .fin b => if b < 0 then .inf else .ninf
  | .fin _, .inf => .fin 0
  | .fin _, .ninf => .fin 0
  | .fin a, .fin b =>
    if b = 0 then
      if a = 0 then .nan else if a < 0 then .ninf else .inf
    else
      .fin (a / b)

/-- The coercion `Number(x)` applied to a number-or-null value:
`Number(null)` is 0 and a number is unchanged. -/
def numberOfNullable : Option JSNum → JSNum
  | none => .fin 0
  | some x => x

/-- From App.jsx: computePremiumPct - null unless premium and underlying
price are both finite and strictly positive, else premium over price
times 100. -/
def computePremiumPct (premium underlyingPrice : JSNum) : Option JSNum :=
  if !premium.isFiniteB || !underlyingPrice.isFiniteB || premium.leZero ||
      underlyingPrice.leZero then
    none
  else
    some ((premium.div underlyingPrice).mul (.fin 100))

/-- From App.jsx: computeAnnualizedPct - the premium percentage (a
number-or-null, coerced by Number) scaled by 365 over days to expiry;
null when the days are not finite and positive. -/
def computeAnnualizedPct (premiumPct : Option JSNum) (daysToExpiry : JSNum) :
    Option JSNum :=
  let pct := numberOfNullable premiumPct
  if !pct.isFiniteB || !daysToExpiry.isFiniteB || daysToExpiry.leZero then
    none
  else
    some (pct.mul ((JSNum.fin 365).div daysToExpiry))

/-- An option row of the chain payload: the numeric fields read by the
enrichment, the two written fields, and all remaining fields bundled as
opaque extra data that the object spread leaves unchanged. -/
structure OptionRow (α : Type) where
  last_price : JSNum
  bid : JSNum
  ask : JSNum
  days_to_expiry : JSNum
  premium_pct : Option JSNum
  annualized_pct : Option JSNum
  extra : α
deriving DecidableEq, Repr

/-- The sell recommendation of the chain payload, with opaque extra data. -/
structure SellRec (β : Type) where
  premium : JSNum
  days_to_expiry : JSNum
  premium_pct : Option JSNum
  annualized_pct : Option JSNum
  extra : β
deriving DecidableEq, Repr

/-- The option-chain payload, with opaque extra data for the fields the
enrichment does not touch. -/
structure ChainPayload (α β γ : Type) where
  current_price : JSNum
  options : List (OptionRow α)
  sell_recommendation : Option (SellRec β)
  extra : γ
deriving DecidableEq, Repr

/-- From App.jsx: the map callback of enrichOptionChainPayload on one
option; `currentPrice` is the already coerced current price computed
once for the whole payload. -/
def enrichOption {α : Type} (currentPrice : JSNum) (opt : OptionRow α) :
    OptionRow α :=
  let last := opt.last_price.orZero
  let bid := opt.bid.orZero
  let ask := opt.ask.orZero
  let days := opt.days_to_expiry
  let mid :=
    if bid.gtZero && ask.gtZero then (bid.add ask).div (.fin 2)
    else JSNum.fin 0
  let premium := if last.gtZero then last else mid
  let premiumPct := computePremiumPct premium currentPrice
  let annualizedPct := computeAnnualizedPct premiumPct days
  { opt with premium_pct := premiumPct, annualized_pct := annualizedPct }

/-- From App.jsx: the enrichment of the sell recommendation, fed by its
premium field. -/
def enrichSellRec {β : Type} (currentPrice : JSNum) (rec : SellRec β) :
    SellRec β :=
  let recPremiumPct := computePremiumPct rec.premium currentPrice
  let recAnnualizedPct :=
    computeAnnualizedPct recPremiumPct rec.days_to_expiry
  { rec with
    premium_pct := recPremiumPct
    annualized_pct := recAnnualizedPct }

/-- From App.jsx: enrichOptionChainPayload.  A null payload is returned
unchanged; otherwise each option gets premium_pct and annualized_pct,
and the sell recommendation, when present, gets the same two fields from
its premium. -/
def enrichOptionChainPayload {α β γ : Type} :
    Option (ChainPayload α β γ) → Option (ChainPayload α β γ)
  | none => none
  | some payload =>
    let currentPrice := payload.current_price.orZero
    let options := payload.options.map (enrichOption currentPrice)
    let recommendation :=
      match payload.sell_recommendation with
      | none => none
      | some rec => some (enrichSellRec currentPrice rec)
    some { payload with
           options := options
           sell_recommendation := recommendation }

/-- The two JWT entries of localStorage used by api.js. -/
structure TokenStore where
  accessToken : Option String
  refreshToken : Option String
deriving DecidableEq, Repr

/-- From api.js: clearTokens removes both stored tokens. -/
def clearTokens (_store : TokenStore) : TokenStore :=
  ⟨none, none⟩

/-- An axios error as seen by the response interceptor: the response
status when a response exists, and the request url when the config
carries one. -/
structure AxiosError where
  status : Option ℕ
  url : Option String
deriving DecidableEq, Repr

/-- Contiguous-substring test on character lists, as in
`String.prototype.includes`. -/
def listContains : List Char → List Char → Bool
  | [], pat => pat.isEmpty
  | c :: t, pat => pat.isPrefixOf (c :: t) || listContains t pat

/-- The JavaScript test `error.config?.url?.includes(s)` coerced by `!`:
true exactly when the url is present and contains the substring. -/
def urlIncludes (e : AxiosError) (s : String) : Bool :=
  match e.url with
  | some u => listContains u.toList s.toList
  | none => false

/-- From api.js: the response error interceptor - on a 401 whose request
url does not include "/auth/me", both tokens are cleared; the error is
then rejected onward unchanged in every case. -/
def responseErrorInterceptor (store : TokenStore) (e : AxiosError) :
    TokenStore × AxiosError :=
  let store2 :=
    if e.status = some 401 && !urlIncludes e "/auth/me" then
      clearTokens store
    else
      store
  (store2, e)

/-- The value getCurrentUser resolves with: the parsed body of /auth/me,
or the synthesized object with authenticated set to false. -/
structure AuthMeData where
  authenticated : Bool
  user : Option String
deriving DecidableEq, Repr

/-- From api.js: getCurrentUser - returns the /auth/me body on success;
on an error whose status is 401 it resolves with authenticated false,
any other error is rethrown. -/
def getCurrentUser (serverResult : Except AxiosError AuthMeData) :
    Except AxiosError AuthMeData :=
  match serverResult with
  | .ok data => .ok data
  | .error e =>
    if e.status = some 401 then
      .ok ⟨false, none⟩
    else
      .error e

end Frontend

namespace Trading

theorem evaluate_nil (positions : List Position) (account : AccountSnapshot)
    (riskState : RiskState) (config : RiskConfig) :
    evaluate [] positions account riskState config = ([], []) := rfl

theorem evaluate_cons_ok_fst {positions : List Position}
    {account : AccountSnapshot} {riskState : RiskState} {config : RiskConfig}
    {r x : TradeRecommendation} (rs : List TradeRecommendation)
    (h : evalOne positions account riskState config r = .ok x) :
    (evaluate (r :: rs) positions account riskState config).1 =
      x :: (evaluate rs positions account riskState config).1 := by
  simp [evaluate, h]

theorem evaluate_cons_ok_snd {positions : List Position}
    {account : AccountSnapshot} {riskState : RiskState} {config : RiskConfig}
    {r x : TradeRecommendation} (rs : List TradeRecommendation)
    (h : evalOne positions account riskState config r = .ok x) :
    (evaluate (r :: rs) positions account riskState config).2 =
      (evaluate rs positions account riskState config).2 := by
  simp [evaluate, h]

theorem evaluate_cons_error_fst {positions : List Position}
    {account : AccountSnapshot} {riskState : RiskState} {config : RiskConfig}
    {r : TradeRecommendation} {m : String} (rs : List TradeRecommendation)
    (h : evalOne positions account riskState config r = .error m) :
    (evaluate (r :: rs) positions account riskState config).1 =
      (evaluate rs positions account riskState config).1 := by
  simp [evaluate, h]

theorem evaluate_cons_error_snd {positions : List Position}
    {account : AccountSnapshot} {riskState : RiskState} {config : RiskConfig}
    {r : TradeRecommendation} {m : String} (rs : List TradeRecommendation)
    (h : evalOne positions account riskState config r = .error m) :
    (evaluate (r :: rs) positions account riskState config).2 =
      ⟨r.symbol, m⟩ ::
        (evaluate rs positions account riskState config).2 := by
  simp [evaluate, h]

theorem evalOne_kill (positions : List Position) (account : AccountSnapshot)
    (riskState : RiskState) (config : RiskConfig)
    (r : TradeRecommendation) (hks : riskState.killSwitchActive = true) :
    evalOne positions account riskState config r = .error "kill_switch" := by
  simp [evalOne, hks]

theorem attachDefaults_action (config : RiskConfig)
    (r : TradeRecommendation) :
    (attachDefaults config r).action = r.action := rfl

theorem evalOne_ok_constraints (positions : List Position)
    (account : AccountSnapshot) (riskState : RiskState)
    (config : RiskConfig) (r x : TradeRecommendation)
    (h : evalOne positions account riskState config r = .ok x) :
    x.action = r.action ∧ riskState.killSwitchActive = false ∧
      ¬(r.action = .buy ∧
        riskState.dailyLoss ≥
          config.maxDailyLossPct * account.portfolioValue) := by
  unfold evalOne at h
  split_ifs at h with h1 h2 h3 h4
  refine ⟨?_, ?_, h2⟩
  · cases h
    exact attachDefaults_action config r
  · simpa using h1

theorem evalOne_daily_loss (positions : List Position)
    (account : AccountSnapshot) (riskState : RiskState)
    (config : RiskConfig) (r : TradeRecommendation)
    (hks : riskState.killSwitchActive = false) (hbuy : r.action = .buy)
    (hloss : riskState.dailyLoss ≥
      config.maxDailyLossPct * account.portfolioValue) :
    evalOne positions account riskState config r =
      .error "daily_loss_limit" := by
  simp [evalOne, hks, hbuy, hloss]

/-- C1: whenever the kill switch is active, evaluate approves no
recommendation, and every BUY and SELL recommendation in the input
appears among the rejections with reason kill_switch, regardless of its
confidence or of the current position state. -/
theorem evaluate_kill_switch_absolute (recs : List TradeRecommendation)
    (positions : List Position) (account : AccountSnapshot)
    (riskState : RiskState) (config : RiskConfig)
    (hks : riskState.killSwitchActive = true) :
    (evaluate recs positions account riskState config).1 = [] ∧
      ∀ r ∈ recs, (r.action = .buy ∨ r.action = .sell) →
        (⟨r.symbol, "kill_switch"⟩ : Rejection) ∈
          (evaluate recs positions account riskState config).2 := by
  induction recs with
  | nil => simp [evaluate_nil]
  | cons r rs ih =>
    have hone := evalOne_kill positions account riskState config r hks
    rw [evaluate_cons_error_fst rs hone, evaluate_cons_error_snd rs hone]
    refine ⟨ih.1, ?_⟩
    intro x hx hact
    rcases List.mem_cons.mp hx with h | h
    · subst h
      exact List.mem_cons_self _ _
    · exact List.mem_cons_of_mem _ (ih.2 x h hact)

/-- Witness for C1 at a concrete input: one BUY and one SELL under an
active kill switch are both rejected with reason kill_switch and nothing
is approved. -/
theorem evaluate_kill_switch_absolute_witness :
    (evaluate
        [⟨"AAPL", .buy, 1, 5, 85/100, none, none⟩,
          ⟨"MSFT", .sell, 1, 5, 9/10, none, none⟩]
        [] ⟨10, 20, 100, 100, 100⟩ ⟨0, 0, true⟩
        ⟨3/100, 1/10, 10, 5/100, 1/10, 7/10, 30⟩).1 = [] ∧
      (⟨"AAPL", "kill_switch"⟩ : Rejection) ∈
        (evaluate
          [⟨"AAPL", .buy, 1, 5, 85/100, none, none⟩,
            ⟨"MSFT", .sell, 1, 5, 9/10, none, none⟩]
          [] ⟨10, 20, 100, 100, 100⟩ ⟨0, 0, true⟩
          ⟨3/100, 1/10, 10, 5/100, 1/10, 7/10, 30⟩).2 := by
  have h := evaluate_kill_switch_absolute
    [⟨"AAPL", .buy, 1, 5, 85/100, none, none⟩,
      ⟨"MSFT", .sell, 1, 5, 9/10, none, none⟩]
    [] ⟨10, 20, 100, 100, 100⟩ ⟨0, 0, true⟩
    ⟨3/100, 1/10, 10, 5/100, 1/10, 7/10, 30⟩ rfl
  exact ⟨h.1,
    h.2 ⟨"AAPL", .buy, 1, 5, 85/100, none, none⟩
      (List.mem_cons_self _ _) (Or.inl rfl)⟩

/-- C4: the risk policy engine is deterministic - two calls of evaluate
on identical inputs return identical outputs. -/
theorem evaluate_deterministic (recs recs2 : List TradeRecommendation)
    (positions positions2 : List Position)
    (account account2 : AccountSnapshot) (riskState riskState2 : RiskState)
    (config config2 : RiskConfig) (h1 : recs = recs2)
    (h2 : positions = positions2) (h3 : account = account2)
    (h4 : riskState = riskState2) (h5 : config = config2) :
    evaluate recs positions account riskState config =
      evaluate recs2 positions2 account2 riskState2 config2 := by
  subst h1 h2 h3 h4 h5
  rfl

/-- Witness for C4 at a concrete input. -/
theorem evaluate_deterministic_witness :
    evaluate [⟨"AAPL", .buy, 1, 5, 85/100, none, none⟩] []
        ⟨10, 20, 100, 100, 100⟩ ⟨0, 0, false⟩
        ⟨3/100, 1/10, 10, 5/100, 1/10, 7/10, 30⟩ =
      evaluate [⟨"AAPL", .buy, 1, 5, 85/100, none, none⟩] []
        ⟨10, 20, 100, 100, 100⟩ ⟨0, 0, false⟩
        ⟨3/100, 1/10, 10, 5/100, 1/10, 7/10, 30⟩ :=
  evaluate_deterministic _ _ _ _ _ _ _ _ _ _ rfl rfl rfl rfl rfl

/-- Scenario input for the daily-loss-breach claim: one BUY
recommendation. -/
def dlBuyRec : TradeRecommendation :=
  ⟨"AAPL", .buy, 1, 5, 85/100, none, none⟩

/-- Scenario input for the daily-loss-breach claim: one SELL
recommendation that reduces an existing position. -/
def dlSellRec : TradeRecommendation :=
  ⟨"MSFT", .sell, 1, 5, 9/10, none, none⟩

/-- Scenario positions: an open MSFT position. -/
def dlPositions : List Position := [⟨"MSFT", 2, 100, 110, 5⟩]

/-- Scenario account with portfolio value 100. -/
def dlAccount : AccountSnapshot := ⟨10, 20, 100, 100, 100⟩

/-- Scenario risk state: daily loss 3.5 on a portfolio of 100, kill
switch off. -/
def dlRiskState : RiskState := ⟨0, 35/10, false⟩

/-- Scenario config: max daily loss 3 percent. -/
def dlConfig : RiskConfig := ⟨3/100, 1/10, 10, 5/100, 1/10, 7/10, 30⟩

/-- C5: with the kill switch off and the cumulative daily loss at or
above max_daily_loss_pct times portfolio value, evaluate rejects every
BUY with reason daily_loss_limit and approves no BUY, while trading is
not halted wholesale: in the concrete breach scenario one BUY and one
SELL yield the BUY rejected with daily_loss_limit and the SELL
approved. -/
theorem evaluate_daily_loss_limit (recs : List TradeRecommendation)
    (positions : List Position) (account : AccountSnapshot)
    (riskState : RiskState) (config : RiskConfig)
    (hks : riskState.killSwitchActive = false)
    (hloss : riskState.dailyLoss ≥
      config.maxDailyLossPct * account.portfolioValue) :
    ((∀ r ∈ recs, r.action = .buy →
        (⟨r.symbol, "daily_loss_limit"⟩ : Rejection) ∈
          (evaluate recs positions account riskState config).2) ∧
      ∀ x ∈ (evaluate recs positions account riskState config).1,
        x.action ≠ .buy) ∧
      evaluate [dlBuyRec, dlSellRec] dlPositions dlAccount dlRiskState
          dlConfig =
        ([attachDefaults dlConfig dlSellRec],
          [⟨"AAPL", "daily_loss_limit"⟩]) := by
  refine ⟨?_, by
    norm_num [evaluate, evalOne, dlBuyRec, dlSellRec, dlPositions, dlAccount,
      dlRiskState, dlConfig, attachDefaults, positionValue, signedNotional]
    exact ⟨rfl, rfl⟩⟩
  induction recs with
  | nil => simp [evaluate_nil]
  | cons r rs ih =>
    cases hone : evalOne positions account riskState config r with
    | ok y =>
      rw [evaluate_cons_ok_fst rs hone, evaluate_cons_ok_snd rs hone]
      constructor
      · intro x hx hbuy
        rcases List.mem_cons.mp hx with h | h
        · subst h
          rw [evalOne_daily_loss positions account riskState config x hks
            hbuy hloss] at hone
          cases hone
        · exact ih.1 x h hbuy
      · intro x hx
        rcases List.mem_cons.mp hx with h | h
        · subst h
          obtain ⟨hact, -, hnot⟩ := evalOne_ok_constraints positions account
            riskState config r x hone
          rw [hact]
          intro hb
          exact hnot ⟨hb, hloss⟩
        · exact ih.2 x h
    | error m =>
      rw [evaluate_cons_error_fst rs hone, evaluate_cons_error_snd rs hone]
      constructor
      · intro x hx hbuy
        rcases List.mem_cons.mp hx with h | h
        · subst h
          rw [evalOne_daily_loss positions account riskState config x hks
            hbuy hloss] at hone
          cases hone
          exact List.mem_cons_self _ _
        · exact List.mem_cons_of_mem _ (ih.1 x h hbuy)
      · intro x hx
        exact ih.2 x hx

/-- Witness for C5 at the concrete breach scenario. -/
theorem evaluate_daily_loss_limit_witness :
    (⟨"AAPL", "daily_loss_limit"⟩ : Rejection) ∈
      (evaluate [dlBuyRec, dlSellRec] dlPositions dlAccount dlRiskState
        dlConfig).2 ∧
      evaluate [dlBuyRec, dlSellRec] dlPositions dlAccount dlRiskState
          dlConfig =
        ([attachDefaults dlConfig dlSellRec],
          [⟨"AAPL", "daily_loss_limit"⟩]) := by
  have h := evaluate_daily_loss_limit [dlBuyRec, dlSellRec] dlPositions
    dlAccount dlRiskState dlConfig rfl
    (by norm_num [dlRiskState, dlConfig, dlAccount])
  exact ⟨h.1.1 dlBuyRec (List.mem_cons_self _ _) rfl, h.2⟩

/-- C6: the recommendation client makes at most 4 attempts (one initial
call plus at most 3 retries), sleeps exactly the exponential backoff
prefix 5s, 15s, 45s, retries only after transient failures, and on a
permanent first failure makes no retry; a run whose model call ends
without a response has outcome no_response and places zero orders. -/
theorem recClient_retry_policy (oracle : ℕ → AttemptResult) :
    ((getRecommendations oracle).attempts ≤ 4 ∧
      (getRecommendations oracle).sleeps =
        List.take ((getRecommendations oracle).attempts - 1) [5, 15, 45] ∧
      ∀ j, j + 1 < (getRecommendations oracle).attempts →
        ∃ c, oracle j = .fail c ∧ c.transient = true) ∧
    ∀ c : FailureClass, c.transient = false → oracle 0 = .fail c →
      getRecommendations oracle = ⟨1, [], .noResponse⟩ ∧
      ∀ (config : RiskConfig) (env : Env) (now : ℚ) (trigger : String)
        (st : CoordState), env.oracle = oracle →
        env.pipelineFault = none → env.marketOpen = true →
        st.lockHeld = false → lastNonSkipped st.runLog = none →
        (run_cycle config env now trigger st).1.outcome = .noResponse ∧
          (run_cycle config env now trigger st).1.ordersPlaced = 0 := by
  constructor
  · rcases h0 : oracle 0 with r0 | c0
    · simp [getRecommendations, recClientAux, h0]
    · cases ht0 : c0.transient
      · simp [getRecommendations, recClientAux, h0, ht0]
      · rcases h1 : oracle 1 with r1 | c1
        · refine ⟨?_, ?_, ?_⟩ <;>
            simp [getRecommendations, recClientAux, backoffDelay, h0, ht0, h1]
          intro j hj
          rcases j with _ | j
          · exact ⟨c0, h0, ht0⟩
          · omega
        · cases ht1 : c1.transient
          · refine ⟨?_, ?_, ?_⟩ <;>
              simp [getRecommendations, recClientAux, backoffDelay, h0, ht0,
                h1, ht1]
            intro j hj
            rcases j with _ | j
            · exact ⟨c0, h0, ht0⟩
            · omega
          · rcases h2 : oracle 2 with r2 | c2
            · refine ⟨?_, ?_, ?_⟩ <;>
                simp [getRecommendations, recClientAux, backoffDelay, h0,
                  ht0, h1, ht1, h2]
              intro j hj
              rcases j with _ | _ | j
              · exact ⟨c0, h0, ht0⟩
              · exact ⟨c1, h1, ht1⟩
              · omega
            · cases ht2 : c2.transient
              · refine ⟨?_, ?_, ?_⟩ <;>
                  simp [getRecommendations, recClientAux, backoffDelay, h0,
                    ht0, h1, ht1, h2, ht2]
                intro j hj
                rcases j with _ | _ | j
                · exact ⟨c0, h0, ht0⟩
                · exact ⟨c1, h1, ht1⟩
                · omega
              · rcases h3 : oracle 3 with r3 | c3 <;>
                  refine ⟨?_, ?_, ?_⟩ <;>
                    simp [getRecommendations, recClientAux, backoffDelay,
                      h0, ht0, h1, ht1, h2, ht2, h3] <;>
                  · intro j hj
                    rcases j with _ | _ | _ | j
                    · exact ⟨c0, h0, ht0⟩
                    · exact ⟨c1, h1, ht1⟩
                    · exact ⟨c2, h2, ht2⟩
                    · omega
  · intro c htc h0
    constructor
    · simp [getRecommendations, recClientAux, h0, htc]
    · intro config env now trigger st hor hpf hmo hlk hgate
      constructor <;>
        simp [run_cycle, hlk, runBody, hgate, hmo, runPipelineExc, hpf, hor,
          getRecommendations, recClientAux, h0, htc]

/-- Oracle of a permanently failing model call: the daily quota code. -/
def quotaOracle : ℕ → AttemptResult := fun _ => .fail .quotaExhausted

/-- Environment for the quota-exhaustion scenario: open market, no
pipeline fault, model calls answered by the quota oracle. -/
def envQuota : Env :=
  ⟨true, ⟨10, 20, 100, 100, 100⟩, [], ⟨0, 0, false⟩, quotaOracle,
    fun _ => true, none⟩

/-- Witness for C6: a daily-quota failure gives one attempt, no sleeps
and no response, and the run ends with outcome no_response and zero
orders. -/
theorem recClient_retry_policy_witness :
    getRecommendations quotaOracle = ⟨1, [], .noResponse⟩ ∧
      (run_cycle dlConfig envQuota 0 "scheduler" ⟨false, []⟩).1.outcome =
        .noResponse ∧
      (run_cycle dlConfig envQuota 0 "scheduler" ⟨false, []⟩).1.ordersPlaced =
        0 := by
  have h := (recClient_retry_policy quotaOracle).2 .quotaExhausted rfl rfl
  have h2 := h.2 dlConfig envQuota 0 "scheduler" ⟨false, []⟩ rfl rfl rfl rfl
    rfl
  exact ⟨h.1, h2.1, h2.2⟩

theorem raceAcquisitions_held (n : ℕ) :
    raceAcquisitions n true = List.replicate n false := by
  induction n with
  | zero => rfl
  | succ n ih => simp [raceAcquisitions, tryAcquire, ih, List.replicate]

theorem run_cycle_report (config : RiskConfig) (env : Env) (now : ℚ)
    (trigger : String) {st : CoordState} (hlk : st.lockHeld = false) :
    (run_cycle config env now trigger st).1 =
      runBody config env now st.runLog := by
  simp [run_cycle, hlk]

theorem run_cycle_state (config : RiskConfig) (env : Env) (now : ℚ)
    (trigger : String) {st : CoordState} (hlk : st.lockHeld = false) :
    (run_cycle config env now trigger st).2 =
      ⟨false,
        ⟨now, trigger, (runBody config env now st.runLog).outcome,
          (runBody config env now st.runLog).reason,
          (runBody config env now st.runLog).ordersPlaced⟩ ::
          st.runLog⟩ := by
  simp [run_cycle, hlk]

theorem runBody_classification (config : RiskConfig) (env : Env) (now : ℚ)
    {log : List RunLogEntry} (hgate : lastNonSkipped log = none)
    (hmo : env.marketOpen = true)
    (hresp : env.pipelineFault ≠ none ∨
      ∃ recs, (getRecommendations env.oracle).result = .got recs) :
    (runBody config env now log).outcome = .success ∨
      (runBody config env now log).outcome = .noTrades ∨
      (runBody config env now log).outcome = .error := by
  cases hpf : env.pipelineFault with
  | some msg => simp [runBody, hgate, hmo, runPipelineExc, hpf]
  | none =>
    rcases hresp with h | ⟨recs, hrecs⟩
    · exact absurd hpf h
    · simp only [runBody, hgate, hmo, runPipelineExc, hpf, hrecs]
      split_ifs <;> simp_all

theorem interval_gate_skips (config : RiskConfig) (env : Env) (now : ℚ)
    (trigger : String) {st : CoordState} {e : RunLogEntry}
    (hlk : st.lockHeld = false)
    (hfound : lastNonSkipped st.runLog = some e)
    (hlt : now - e.timestamp < config.intervalMinutes) :
    (run_cycle config env now trigger st).1 =
      ⟨.skipped, "interval not elapsed", 0, [], 0, 0⟩ := by
  rw [run_cycle_report config env now trigger hlk]
  simp [runBody, hfound, hlt]

/-- C2: of any number of concurrent invocations racing for the run lock,
exactly one acquires it; an invocation that finds the lock held returns
at once with outcome skipped and reason "run in progress", makes no
broker or model call, and leaves the lock held. -/
theorem run_cycle_mutual_exclusion (n : ℕ) (hn : 1 ≤ n) :
    (raceAcquisitions n false).count true = 1 ∧
      ∀ (config : RiskConfig) (env : Env) (now : ℚ) (trigger : String)
        (st : CoordState), st.lockHeld = true →
        (run_cycle config env now trigger st).1.outcome = .skipped ∧
          (run_cycle config env now trigger st).1.reason =
            "run in progress" ∧
          (run_cycle config env now trigger st).1.brokerCalls = 0 ∧
          (run_cycle config env now trigger st).1.modelCalls = 0 ∧
          (run_cycle config env now trigger st).2.lockHeld = true := by
  constructor
  · rcases n with _ | n
    · omega
    · simp [raceAcquisitions, tryAcquire, raceAcquisitions_held,
        List.count_cons, List.count_replicate]
  · intro config env now trigger st hlk
    refine ⟨?_, ?_, ?_, ?_, ?_⟩ <;> simp [run_cycle, hlk]

/-- Witness for C2 with three concurrent invocations and a concrete
held-lock invocation. -/
theorem run_cycle_mutual_exclusion_witness :
    (raceAcquisitions 3 false).count true = 1 ∧
      (run_cycle dlConfig envQuota 0 "scheduler" ⟨true, []⟩).1.outcome =
        .skipped ∧
      (run_cycle dlConfig envQuota 0 "scheduler" ⟨true, []⟩).1.reason =
        "run in progress" := by
  have h := run_cycle_mutual_exclusion 3 (by omega)
  have h2 := h.2 dlConfig envQuota 0 "scheduler" ⟨true, []⟩ rfl
  exact ⟨h.1, h2.1, h2.2.1⟩

/-- C3: with a positive interval, a first run that passes the gates ends
as success, no_trades or error; an immediately following call is skipped
with reason "interval not elapsed" and makes no broker and no model
call; in general the interval gate reads the most recent non-skipped
RunLogEntry and skips the run whenever now minus its timestamp is below
the configured interval, touching neither broker nor model. -/
theorem run_cycle_interval_idempotent (config : RiskConfig) (env env2 : Env)
    (now now2 : ℚ) (trigger trigger2 : String) (st : CoordState)
    (hpos : 0 < config.intervalMinutes) (hlk : st.lockHeld = false)
    (hgate : lastNonSkipped st.runLog = none) (hmo : env.marketOpen = true)
    (hresp : env.pipelineFault ≠ none ∨
      ∃ recs, (getRecommendations env.oracle).result = .got recs)
    (hgap : now2 - now < config.intervalMinutes) :
    ((run_cycle config env now trigger st).1.outcome = .success ∨
      (run_cycle config env now trigger st).1.outcome = .noTrades ∨
      (run_cycle config env now trigger st).1.outcome = .error) ∧
      ((run_cycle config env2 now2 trigger2
          (run_cycle config env now trigger st).2).1 =
        ⟨.skipped, "interval not elapsed", 0, [], 0, 0⟩) ∧
      ∀ (env3 : Env) (now3 : ℚ) (trigger3 : String) (st3 : CoordState)
        (e : RunLogEntry), st3.lockHeld = false →
        lastNonSkipped st3.runLog = some e →
        now3 - e.timestamp < config.intervalMinutes →
        (run_cycle config env3 now3 trigger3 st3).1 =
          ⟨.skipped, "interval not elapsed", 0, [], 0, 0⟩ := by
  have hclass := runBody_classification config env now hgate hmo hresp
  have hns : (runBody config env now st.runLog).outcome ≠ .skipped := by
    rcases hclass with h | h | h <;> rw [h] <;> intro hcon <;> cases hcon
  refine ⟨?_, ?_, ?_⟩
  · rw [run_cycle_report config env now trigger hlk]
    exact hclass
  · have hst := run_cycle_state config env now trigger hlk
    have hfound : lastNonSkipped
        (run_cycle config env now trigger st).2.runLog =
        some ⟨now, trigger, (runBody config env now st.runLog).outcome,
          (runBody config env now st.runLog).reason,
          (runBody config env now st.runLog).ordersPlaced⟩ := by
      rw [hst]
      simp [lastNonSkipped, List.find?_cons_of_pos, hns]
    have hlk2 : (run_cycle config env now trigger st).2.lockHeld = false := by
      rw [hst]
    exact interval_gate_skips config env2 now2 trigger2 hlk2 hfound
      (by simpa using hgap)
  · intro env3 now3 trigger3 st3 e hlk3 hfound3 hlt3
    exact interval_gate_skips config env3 now3 trigger3 hlk3 hfound3 hlt3

/-- Witness for C3: a first run against the quota oracle environment
with a pipeline fault ends as error, and the immediate second call is
skipped by the interval gate without broker or model calls. -/
theorem run_cycle_interval_idempotent_witness :
    ((run_cycle dlConfig ⟨true, ⟨10, 20, 100, 100, 100⟩, [], ⟨0, 0, false⟩,
          quotaOracle, fun _ => true, some "boom"⟩ 0 "scheduler"
        ⟨false, []⟩).1.outcome = .error ∨
      (run_cycle dlConfig ⟨true, ⟨10, 20, 100, 100, 100⟩, [], ⟨0, 0, false⟩,
          quotaOracle, fun _ => true, some "boom"⟩ 0 "scheduler"
        ⟨false, []⟩).1.outcome = .success ∨
      (run_cycle dlConfig ⟨true, ⟨10, 20, 100, 100, 100⟩, [], ⟨0, 0, false⟩,
          quotaOracle, fun _ => true, some "boom"⟩ 0 "scheduler"
        ⟨false, []⟩).1.outcome = .noTrades) ∧
      (run_cycle dlConfig ⟨true, ⟨10, 20, 100, 100, 100⟩, [], ⟨0, 0, false⟩,
          quotaOracle, fun _ => true, some "boom"⟩ 0 "manual"
        (run_cycle dlConfig ⟨true, ⟨10, 20, 100, 100, 100⟩, [],
            ⟨0, 0, false⟩, quotaOracle, fun _ => true, some "boom"⟩ 0
          "scheduler" ⟨false, []⟩).2).1 =
        ⟨.skipped, "interval not elapsed", 0, [], 0, 0⟩ := by
  have h := run_cycle_interval_idempotent dlConfig
    ⟨true, ⟨10, 20, 100, 100, 100⟩, [], ⟨0, 0, false⟩, quotaOracle,
      fun _ => true, some "boom"⟩
    ⟨true, ⟨10, 20, 100, 100, 100⟩, [], ⟨0, 0, false⟩, quotaOracle,
      fun _ => true, some "boom"⟩
    0 0 "scheduler" "manual" ⟨false, []⟩ (by norm_num [dlConfig]) rfl rfl
    rfl (Or.inl (by simp)) (by norm_num [dlConfig])
  exact ⟨h.1.elim (fun hx => Or.inr (Or.inl hx))
    (fun hx => hx.elim (fun hy => Or.inr (Or.inr hy)) Or.inl), h.2.1⟩

/-- C7: every synchronous completion of POST /api/analyze yields a
structured object whose status, message and trades_executed fields
reflect the run report, for every input state; a gated-off invocation
(lock held) gets status skipped, and an unexpected pipeline fault
surfaces as status error with its message, never as a raw exception. -/
theorem analyzeEndpoint_structured (config : RiskConfig) (env : Env)
    (now : ℚ) (st : CoordState) :
    ((analyzeEndpoint config env now st).1.status =
        ((run_cycle config env now "manual" st).1.outcome).statusString ∧
      (analyzeEndpoint config env now st).1.message =
        (run_cycle config env now "manual" st).1.reason ∧
      (analyzeEndpoint config env now st).1.tradesExecuted =
        (run_cycle config env now "manual" st).1.ordersPlaced) ∧
      (st.lockHeld = true →
        (analyzeEndpoint config env now st).1.status = "skipped") ∧
      ∀ msg, env.pipelineFault = some msg → st.lockHeld = false →
        lastNonSkipped st.runLog = none → env.marketOpen = true →
        (analyzeEndpoint config env now st).1.status = "error" ∧
          (analyzeEndpoint config env now st).1.message = msg := by
  refine ⟨⟨rfl, rfl, rfl⟩, ?_, ?_⟩
  · intro hlk
    simp [analyzeEndpoint, run_cycle, hlk, Outcome.statusString]
  · intro msg hpf hlk hgate hmo
    have hrep := run_cycle_report config env now "manual" hlk
    constructor <;>
      simp [analyzeEndpoint, hrep, runBody, hgate, hmo, runPipelineExc,
        hpf, Outcome.statusString]

/-- Witness for C7: a held-lock call answers skipped, and a faulting run
answers error with the fault message. -/
theorem analyzeEndpoint_structured_witness :
    (analyzeEndpoint dlConfig envQuota 0 ⟨true, []⟩).1.status =
        "skipped" ∧
      (analyzeEndpoint dlConfig ⟨true, ⟨10, 20, 100, 100, 100⟩, [],
          ⟨0, 0, false⟩, quotaOracle, fun _ => true, some "boom"⟩ 0
        ⟨false, []⟩).1.status = "error" := by
  have h1 := (analyzeEndpoint_structured dlConfig envQuota 0
    ⟨true, []⟩).2.1 rfl
  have h2 := ((analyzeEndpoint_structured dlConfig
    ⟨true, ⟨10, 20, 100, 100, 100⟩, [], ⟨0, 0, false⟩, quotaOracle,
      fun _ => true, some "boom"⟩ 0 ⟨false, []⟩).2.2 "boom" rfl rfl rfl
    rfl).1
  exact ⟨h1, h2⟩

/-- C8: the confidence filter keeps exactly the recommendations whose
confidence is not strictly below the configured minimum - one equal to
the minimum is kept - and a run in which the surviving set is empty ends
with outcome no_trades. -/
theorem confidenceFilter_exact (minC : ℚ) (recs : List TradeRecommendation)
    (r : TradeRecommendation) :
    (r ∈ confidenceFilter minC recs ↔
        r ∈ recs ∧ ¬(r.confidence < minC)) ∧
      (r ∈ recs → r.confidence = minC → r ∈ confidenceFilter minC recs) ∧
      ∀ (config : RiskConfig) (env : Env) (now : ℚ) (trigger : String)
        (st : CoordState) (got : List TradeRecommendation),
        st.lockHeld = false → lastNonSkipped st.runLog = none →
        env.marketOpen = true → env.pipelineFault = none →
        (getRecommendations env.oracle).result = .got got →
        confidenceFilter config.minConfidence got = [] →
        (run_cycle config env now trigger st).1.outcome = .noTrades := by
  have hmem : ∀ (m : ℚ) (l : List TradeRecommendation)
      (x : TradeRecommendation), x ∈ confidenceFilter m l ↔
        x ∈ l ∧ ¬(x.confidence < m) := by
    intro m l x
    simp [confidenceFilter, List.mem_filter]
  refine ⟨hmem minC recs r, ?_, ?_⟩
  · intro hr heq
    exact (hmem minC recs r).mpr ⟨hr, by rw [heq]; exact lt_irrefl minC⟩
  · intro config env now trigger st got hlk hgate hmo hpf hgot hempty
    rw [run_cycle_report config env now trigger hlk]
    simp [runBody, hgate, hmo, runPipelineExc, hpf, hgot, hempty]

/-- Environment whose model call returns a single recommendation below
the minimum confidence. -/
def envLowConf : Env :=
  ⟨true, ⟨10, 20, 100, 100, 100⟩, [], ⟨0, 0, false⟩,
    fun _ => .ok [⟨"AAPL", .buy, 1, 5, 1/2, none, none⟩], fun _ => true,
    none⟩

/-- Witness for C8: a recommendation with confidence exactly at the
minimum is kept, and a run whose only recommendation is below the
minimum ends with no_trades. -/
theorem confidenceFilter_exact_witness :
    (⟨"MSFT", .sell, 1, 5, 7/10, none, none⟩ : TradeRecommendation) ∈
        confidenceFilter (7/10)
          [⟨"MSFT", .sell, 1, 5, 7/10, none, none⟩] ∧
      (run_cycle dlConfig envLowConf 0 "scheduler" ⟨false, []⟩).1.outcome =
        .noTrades := by
  have h := confidenceFilter_exact (7/10)
    [⟨"MSFT", .sell, 1, 5, 7/10, none, none⟩]
    ⟨"MSFT", .sell, 1, 5, 7/10, none, none⟩
  refine ⟨h.2.1 (List.mem_cons_self _ _) rfl, ?_⟩
  refine h.2.2 dlConfig envLowConf 0 "scheduler" ⟨false, []⟩
    [⟨"AAPL", .buy, 1, 5, 1/2, none, none⟩] rfl rfl rfl rfl rfl ?_
  simp [confidenceFilter, dlConfig]
  norm_num

end Trading

namespace Frontend

/-- C9: in the frontend API client, a 401 response whose request url
does not contain "/auth/me" clears both stored tokens before the error
is propagated unchanged; and getCurrentUser resolves a 401 error to the
object with authenticated false instead of rethrowing. -/
theorem api_unauthorized_handling (store : TokenStore) (e : AxiosError)
    (h401 : e.status = some 401)
    (hurl : urlIncludes e "/auth/me" = false) :
    responseErrorInterceptor store e = (⟨none, none⟩, e) ∧
      ∀ e2 : AxiosError, e2.status = some 401 →
        getCurrentUser (.error e2) = .ok ⟨false, none⟩ := by
  constructor
  · simp [responseErrorInterceptor, clearTokens, h401, hurl]
  · intro e2 h2
    simp [getCurrentUser, h2]

/-- Witness for C9: a 401 on a portfolio request clears a populated
token store, and getCurrentUser turns a 401 from /auth/me into the
unauthenticated object. -/
theorem api_unauthorized_handling_witness :
    responseErrorInterceptor ⟨some "acc", some "ref"⟩
        ⟨some 401, some "/api/portfolio"⟩ =
      (⟨none, none⟩, ⟨some 401, some "/api/portfolio"⟩) ∧
      getCurrentUser (.error ⟨some 401, some "/auth/me"⟩) =
        .ok ⟨false, none⟩ := by
  have h := api_unauthorized_handling ⟨some "acc", some "ref"⟩
    ⟨some 401, some "/api/portfolio"⟩ rfl (by decide)
  exact ⟨h.1, h.2 ⟨some 401, some "/auth/me"⟩ rfl⟩

theorem orZero_fin (q : ℚ) : (JSNum.fin q).orZero = .fin q := by
  simp only [JSNum.orZero]
  split_ifs with h <;> simp [h]

theorem orZero_gtZero (x : JSNum) : x.orZero.gtZero = x.gtZero := by
  cases x with
  | fin q => rw [orZero_fin]
  | _ => simp [JSNum.orZero, JSNum.gtZero]

theorem orZero_of_gtZero (x : JSNum) (h : x.gtZero = true) :
    x.orZero = x := by
  cases x with
  | fin q => rw [orZero_fin]
  | _ => simp_all [JSNum.gtZero, JSNum.orZero]

/-- C10 claim wording: the effective premium - the last price when
strictly positive, else the bid-ask midpoint when bid and ask are both
strictly positive, else 0. -/
def claimedPremium (last bid ask : JSNum) : JSNum :=
  if last.gtZero then last
  else if bid.gtZero && ask.gtZero then (bid.add ask).div (.fin 2)
  else .fin 0

/-- C10 claim wording: premium_pct is null unless the premium and the
current price are both finite and strictly positive, in which case it is
premium over current price times 100. -/
def claimedPremiumPct (premium currentPrice : JSNum) : Option JSNum :=
  if premium.isFiniteB && premium.gtZero && currentPrice.isFiniteB &&
      currentPrice.gtZero then
    some ((premium.div currentPrice).mul (.fin 100))
  else none

/-- C10 amended wording: annualized_pct is null unless days_to_expiry is
finite and strictly positive, in which case it is the premium percentage
- taken as 0 when premium_pct is null - times 365 over days_to_expiry. -/
def claimedAnnualizedPct (premiumPct : Option JSNum) (days : JSNum) :
    Option JSNum :=
  let pct :=
    match premiumPct with
    | none => JSNum.fin 0
    | some x => x
  if pct.isFiniteB && days.isFiniteB && days.gtZero then
    some (pct.mul ((JSNum.fin 365).div days))
  else none

/-- C10 amended wording, per option row: the two computed fields from
the raw fields, everything else unchanged. -/
def claimedOption {α : Type} (currentPrice : JSNum) (opt : OptionRow α) :
    OptionRow α :=
  let premiumPct :=
    claimedPremiumPct (claimedPremium opt.last_price opt.bid opt.ask)
      currentPrice
  { opt with
    premium_pct := premiumPct
    annualized_pct := claimedAnnualizedPct premiumPct opt.days_to_expiry }

/-- C10 amended wording, for the sell recommendation: the same two
fields computed from its premium field. -/
def claimedSellRec {β : Type} (currentPrice : JSNum) (rec : SellRec β) :
    SellRec β :=
  let premiumPct := claimedPremiumPct rec.premium currentPrice
  { rec with
    premium_pct := premiumPct
    annualized_pct := claimedAnnualizedPct premiumPct rec.days_to_expiry }

theorem computeAnnualizedPct_eq_claimed (pct : Option JSNum)
    (days : JSNum) :
    computeAnnualizedPct pct days = claimedAnnualizedPct pct days := by
  rcases pct with _ | x
  · cases days with
    | fin q =>
      by_cases hq : q ≤ 0
      · simp [computeAnnualizedPct, claimedAnnualizedPct, numberOfNullable,
          JSNum.isFiniteB, JSNum.leZero, JSNum.gtZero, hq, not_lt.mpr hq]
      · simp [computeAnnualizedPct, claimedAnnualizedPct, numberOfNullable,
          JSNum.isFiniteB, JSNum.leZero, JSNum.gtZero, hq, not_le.mp hq]
    | _ =>
      simp [computeAnnualizedPct, claimedAnnualizedPct, numberOfNullable,
        JSNum.isFiniteB, JSNum.leZero, JSNum.gtZero]
  · cases x <;> cases days with
    | fin q =>
      by_cases hq : q ≤ 0
      · simp [computeAnnualizedPct, claimedAnnualizedPct, numberOfNullable,
          JSNum.isFiniteB, JSNum.leZero, JSNum.gtZero, hq, not_lt.mpr hq]
      · simp [computeAnnualizedPct, claimedAnnualizedPct, numberOfNullable,
          JSNum.isFiniteB, JSNum.leZero, JSNum.gtZero, hq, not_le.mp hq]
    | _ =>
      simp [computeAnnualizedPct, claimedAnnualizedPct, numberOfNullable,
        JSNum.isFiniteB, JSNum.leZero, JSNum.gtZero]

theorem computePremiumPct_orZero (p cur : JSNum) :
    computePremiumPct p cur.orZero = claimedPremiumPct p cur := by
  cases cur with
  | fin q =>
    rw [orZero_fin]
    cases p with
    | fin r =>
      by_cases hr : r ≤ 0 <;> by_cases hq : q ≤ 0 <;>
        simp [computePremiumPct, claimedPremiumPct, JSNum.isFiniteB,
          JSNum.leZero, JSNum.gtZero, hr, hq, not_lt.mpr, not_le.mp]
    | _ =>
      simp [computePremiumPct, claimedPremiumPct, JSNum.isFiniteB,
        JSNum.leZero, JSNum.gtZero]
  | _ =>
    cases p <;>
      simp [computePremiumPct, claimedPremiumPct, JSNum.orZero,
        JSNum.isFiniteB, JSNum.leZero, JSNum.gtZero]

theorem premium_eq (l b a : JSNum) :
    (if l.orZero.gtZero then l.orZero
     else
       if b.orZero.gtZero && a.orZero.gtZero then
         (b.orZero.add a.orZero).div (.fin 2)
       else .fin 0) = claimedPremium l b a := by
  rw [orZero_gtZero, orZero_gtZero, orZero_gtZero]
  unfold claimedPremium
  by_cases hl : l.gtZero = true
  · simp [hl, orZero_of_gtZero l hl]
  · have hl2 : l.gtZero = false := by simpa using hl
    by_cases hb : b.gtZero = true <;> by_cases ha : a.gtZero = true <;>
      simp [hl2, hb, ha, orZero_of_gtZero]

theorem enrichOption_orZero {α : Type} (cur : JSNum) (opt : OptionRow α) :
    enrichOption cur.orZero opt = claimedOption cur opt := by
  simp only [enrichOption, claimedOption]
  rw [premium_eq, computePremiumPct_orZero, computeAnnualizedPct_eq_claimed]

theorem enrichSellRec_orZero {β : Type} (cur : JSNum) (rec : SellRec β) :
    enrichSellRec cur.orZero rec = claimedSellRec cur rec := by
  simp only [enrichSellRec, claimedSellRec]
  rw [computePremiumPct_orZero, computeAnnualizedPct_eq_claimed]

/-- Concrete option-chain payload falsifying the claimed annualized
rule: premium 0 (no last price, no bid, no ask), 10 days to expiry,
underlying at 100. -/
def cexPayload : ChainPayload Unit Unit Unit :=
  ⟨.fin 100, [⟨.fin 0, .fin 0, .fin 0, .fin 10, none, none, ()⟩], none, ()⟩

/-- The enriched row the code produces for cexPayload: premium_pct is
null, yet annualized_pct is 0 rather than null. -/
def cexRowOut : OptionRow Unit :=
  ⟨.fin 0, .fin 0, .fin 0, .fin 10, none, some (.fin 0), ()⟩

/-- C10 counterexample: on an option with zero premium and positive
days to expiry, enrichOptionChainPayload leaves premium_pct null but
sets annualized_pct to 0 - a non-null value - because Number(null) is 0;
the claim states annualized_pct is null whenever premium_pct is null. -/
theorem enrichOptionChainPayload_annualized_counterexample :
    enrichOptionChainPayload (some cexPayload) =
        some ⟨.fin 100, [cexRowOut], none, ()⟩ ∧
      cexRowOut.premium_pct = none ∧
      cexRowOut.annualized_pct = some (.fin 0) ∧
      cexRowOut.annualized_pct ≠ none := by
  refine ⟨?_, rfl, rfl, by simp [cexRowOut]⟩
  norm_num [enrichOptionChainPayload, cexPayload, cexRowOut, enrichOption,
    computePremiumPct, computeAnnualizedPct, numberOfNullable, JSNum.orZero,
    JSNum.gtZero, JSNum.leZero, JSNum.isFiniteB, JSNum.add, JSNum.div,
    JSNum.mul]

/-- C10 as amended: a null payload is returned unchanged; every option
row keeps all its raw fields and gets premium_pct by the claimed premium
rule, while annualized_pct is null unless days_to_expiry is finite and
strictly positive, and otherwise equals the premium percentage - taken
as 0 when premium_pct is null - times 365 over days_to_expiry; the sell
recommendation, when present, is enriched by the same rules from its
premium field, and all remaining payload fields are unchanged. -/
theorem enrichOptionChainPayload_amended {α β γ : Type} :
    enrichOptionChainPayload (none : Option (ChainPayload α β γ)) = none ∧
      ∀ p : ChainPayload α β γ,
        enrichOptionChainPayload (some p) =
          some { p with
                 options := p.options.map (claimedOption p.current_price)
                 sell_recommendation :=
                   p.sell_recommendation.map
                     (claimedSellRec p.current_price) } := by
  refine ⟨rfl, ?_⟩
  intro p
  have hopt : enrichOption p.current_price.orZero =
      claimedOption (α := α) p.current_price :=
    funext (enrichOption_orZero p.current_price)
  simp only [enrichOptionChainPayload, hopt]
  cases p.sell_recommendation with
  | none => rfl
  | some rec => simp [enrichSellRec_orZero]

end Frontend
